import Mathlib

/-!
Shallow embedding of the cortex-load-generator client package
(`pkg/client/write.go`, `pkg/client/query.go`, `pkg/client/tenant.go`)
together with theorems settling the specification claims.

Modelling conventions:
* `time.Time` and `time.Duration` are modelled as `Int` nanosecond counts
  (Go stores both with nanosecond resolution; `int64` arithmetic in the
  modelled range never overflows for the quantities involved).
* Go's `/` on `int64`/`time.Duration` truncates towards zero: `Int.tdiv`.
* `time.Time.Unix` / `time.Time.UnixMilli` floor towards negative infinity
  (Go times are stored as seconds plus a nonnegative nanosecond remainder):
  `Int.fdiv`.
* `float64` sample values are modelled as rationals; the transcendental
  `math.Sin`-based value function is abstracted as an arbitrary fixed
  function of the nanosecond timestamp (it is a pure function in the
  source, and no claim depends on concrete sine values).
-/

namespace CortexLoadGen

/-- Go integer (and `time.Duration`) division: truncation towards zero. -/
def goDiv (a b : Int) : Int := Int.tdiv a b

/-- Nanoseconds in one second. -/
def nsPerSecond : Int := 1000000000

/-- Nanoseconds in one millisecond. -/
def nsPerMilli : Int := 1000000

/-- Go `time.Time.Unix()`: seconds since epoch, flooring (Go times store a
nonnegative sub-second nanosecond component). -/
def unixSeconds (tNs : Int) : Int := Int.fdiv tNs nsPerSecond

/-- Go `time.Time.UnixMilli()`: milliseconds since epoch, flooring. -/
def unixMilli (tNs : Int) : Int := Int.fdiv tNs nsPerMilli

/-- From `pkg/client/write.go`:
`time.Unix(0, (ts.UnixNano()/int64(interval))*int64(interval))`. -/
def alignTimestampToInterval (ts interval : Int) : Int :=
  goDiv ts interval * interval

/-- Comparison of two strings as Go compares them (`<` on strings is
lexicographic on bytes; for the label data generated here the byte order
and the code-point order coincide). -/
def charListLt : List Char → List Char → Bool
  | [], [] => false
  | [], _ :: _ => true
  | _ :: _, [] => false
  | a :: as, b :: bs => if a = b then charListLt as bs else decide (a < b)

/-- Go string `<`. -/
def strLtB (a b : String) : Bool := charListLt a.data b.data

/-- A Prometheus label (`prompb.Label`). -/
structure Label where
  name : String
  value : String
deriving DecidableEq, Repr

/-- Comparator used by `sort.Slice` in `generateSineWaveSeries`:
by name first, then by value. `lePair a b` is true when `a` need not be
placed after `b`. -/
def labelLe (a b : Label) : Bool :=
  if a.name = b.name then !(strLtB b.value a.value) else strLtB a.name b.name

/-- Insertion step of the label sort. -/
def insertLabel (x : Label) : List Label → List Label
  | [] => [x]
  | y :: ys => if labelLe x y then x :: y :: ys else y :: insertLabel x ys

/-- Sorting of the label slice by (name, value). The Go code uses
`sort.Slice`, an unstable sort; all label names within one series are
distinct, so the result is the unique sorted permutation and insertion
sort produces exactly it. -/
def sortLabels : List Label → List Label
  | [] => []
  | x :: xs => insertLabel x (sortLabels xs)

/-- A sample of a remote-write series (`prompb.Sample`) or of a query
result (`model.SamplePair`): a millisecond timestamp and a float value
(modelled as a rational). -/
structure Sample where
  value : ℚ
  timestampMs : Int
deriving DecidableEq, Repr

/-- A remote-write series (`prompb.TimeSeries`). -/
structure TimeSeries where
  labels : List Label
  samples : List Sample
deriving DecidableEq, Repr

/-- The `extraLabel<j>: "default"` filler labels of
`generateSineWaveSeries`. -/
def extraLabelsList (extraLabelsCount : Nat) : List Label :=
  (List.range extraLabelsCount).map fun j => ⟨"extraLabel" ++ toString j, "default"⟩

/-- Go `int64(churnPeriod.Seconds())`: the churn period in whole seconds,
truncated. (`Duration.Seconds` returns a `float64`; within the modelled
range that conversion is exact down to the truncation performed here.) -/
def churnPeriodSeconds (churnNs : Int) : Int := goDiv churnNs nsPerSecond

/-- From `pkg/client/write.go`:
`t.Add((churnPeriod/time.Duration(seriesCount))*time.Duration(seriesID)).Unix() / int64(churnPeriod.Seconds())`. -/
def churnID (t churnNs : Int) (seriesCount seriesID : Nat) : Int :=
  goDiv (unixSeconds (t + goDiv churnNs (seriesCount : Int) * (seriesID : Int)))
    (churnPeriodSeconds churnNs)

/-- Label set of the series with 1-based index `seriesID`, as built and
then sorted by `generateSineWaveSeries`. -/
def seriesLabels (t : Int) (seriesCount extraLabelsCount : Nat) (churnNs : Int)
    (seriesID : Nat) : List Label :=
  sortLabels
    ([⟨"__name__", "cortex_load_generator_sine_wave"⟩, ⟨"wave", toString seriesID⟩]
      ++ extraLabelsList extraLabelsCount
      ++ (if 0 < churnNs then
            [⟨"churn", toString (churnID t churnNs seriesCount seriesID)⟩]
          else []))

/-- From `pkg/client/write.go`, `generateSineWaveSeries`: one series per
1-based index `1..seriesCount`, each carrying one sample whose value is
`generateSineWaveValue(t)` and whose timestamp is `t.UnixMilli()`.
`sineValue` abstracts the pure float function `generateSineWaveValue` of
the nanosecond timestamp. -/
def generateSineWaveSeries (sineValue : Int → ℚ) (t : Int)
    (seriesCount extraLabelsCount : Nat) (churnNs : Int) : List TimeSeries :=
  (List.range seriesCount).map fun k =>
    { labels := seriesLabels t seriesCount extraLabelsCount churnNs (k + 1)
      samples := [{ value := sineValue t, timestampMs := unixMilli t }] }

/-- Loop of `writeSeries` over batch offsets `o = 0, B, 2B, ...`; `fuel`
bounds the iteration count (the list length suffices whenever the batch
size is at least 1; for batch size 0 the Go loop does not terminate). -/
def batchLoop {α : Type} (batchSize : Nat) : Nat → List α → List (List α)
  | 0, _ => []
  | _, [] => []
  | fuel + 1, x :: xs =>
    (x :: xs).take batchSize :: batchLoop batchSize fuel ((x :: xs).drop batchSize)

/-- From `pkg/client/write.go`, `writeSeries`: the list of per-request
series slices `series[o:min(o+batchSize, len)]` in dispatch order. -/
def writeBatches {α : Type} (batchSize : Nat) (l : List α) : List (List α) :=
  batchLoop batchSize l.length l

/-- Constant `maxComparisonDelta` from `pkg/client/query.go`. -/
def maxComparisonDelta : ℚ := 1 / 1000

/-- Counter label value `comparisonSuccess`. -/
def comparisonSuccess : String := "success"

/-- Counter label value `comparisonFailed`. -/
def comparisonFailed : String := "fail"

/-- Counter label value `querySkipped`. -/
def querySkipped : String := "skipped"

/-- Counter label value `querySuccess`. -/
def querySuccess : String := "success"

/-- Counter label value `queryFailed`. -/
def queryFailed : String := "fail"

/-- The default verification query string from `pkg/client/query.go`. -/
def defaultQuery : String := "sum(cortex_load_generator_sine_wave)"

/-- From `pkg/client/query.go`:
`delta := math.Abs((actual - expected) / maxComparisonDelta); return delta < maxComparisonDelta`. -/
def compareSampleValues (actual expected : ℚ) : Bool :=
  |(actual - expected) / maxComparisonDelta| < maxComparisonDelta

/-- From `pkg/client/query.go`, `getQueryStep`. -/
def getQueryStep (start endT writeInterval : Int) : Int :=
  let maxSamples : Int := 1000
  let actualSamples := goDiv (endT - start) writeInterval
  if actualSamples ≤ maxSamples then writeInterval
  else
    let step := goDiv (endT - start) maxSamples
    (goDiv step writeInterval + 1) * writeInterval

/-- Verification failures reported by `verifySineWaveSamples` (the source
formats them into error strings; only their presence and kind matter
here). -/
inductive VerifyError : Type
  | valueMismatch (timestampMs : Int)
  | timestampGap (timestampMs : Int)
deriving DecidableEq, Repr

/-- Inner loop of `verifySineWaveSamples`, carrying the previous sample's
millisecond timestamp (absent at index 0). Each sample's value is checked
against `generateSineWaveValue(ts) * float64(expectedSeries)`, then its
timestamp against the previous timestamp advanced by the step. -/
def verifyLoop (sineValue : Int → ℚ) (expectedSeries : Int) (stepNs : Int) :
    Option Int → List Sample → Option VerifyError
  | _, [] => none
  | prevMs?, s :: rest =>
    let tsNs := s.timestampMs * nsPerMilli
    if compareSampleValues s.value (sineValue tsNs * (expectedSeries : ℚ)) = false then
      some (.valueMismatch s.timestampMs)
    else
      match prevMs? with
      | none => verifyLoop sineValue expectedSeries stepNs (some s.timestampMs) rest
      | some prevMs =>
        if s.timestampMs ≠ unixMilli (prevMs * nsPerMilli + stepNs) then
          some (.timestampGap s.timestampMs)
        else verifyLoop sineValue expectedSeries stepNs (some s.timestampMs) rest

/-- From `pkg/client/query.go`, `verifySineWaveSamples`. -/
def verifySineWaveSamples (sineValue : Int → ℚ) (samples : List Sample)
    (expectedSeries : Int) (stepNs : Int) : Option VerifyError :=
  verifyLoop sineValue expectedSeries stepNs none samples

/-- The two counter vectors of the query client. -/
inductive CounterName : Type
  | queriesTotal
  | resultsComparedTotal
deriving DecidableEq, Repr

/-- One counter increment: which counter vector, its `result` label and
its `query` label. -/
structure CounterInc where
  counter : CounterName
  result : String
  query : String
deriving DecidableEq, Repr

/-- The outcome of `runQuery`: an error, or the parsed sample list of the
single result series. -/
def QueryOutcome : Type := Except Unit (List Sample)

/-- From `pkg/client/query.go`, `runQueryAndCollectStats`: the counter
increments it performs, in program order, together with the value it
returns. On a query error the code increments the `fail` counter and
then — lacking an early return — still increments the `success` counter. -/
def runQueryAndCollectStats (queryResult : QueryOutcome) (query : String) :
    List CounterInc × QueryOutcome :=
  match queryResult with
  | .error e =>
    ([⟨.queriesTotal, queryFailed, query⟩, ⟨.queriesTotal, querySuccess, query⟩],
      .error e)
  | .ok samples => ([⟨.queriesTotal, querySuccess, query⟩], .ok samples)

/-- From `pkg/client/query.go`, `runDefaultQuery`: counter increments of
one default-query execution given the query outcome. -/
def runDefaultQuery (sineValue : Int → ℚ) (expectedSeries : Int) (stepNs : Int)
    (queryResult : QueryOutcome) : List CounterInc :=
  let r := runQueryAndCollectStats queryResult defaultQuery
  match r.2 with
  | .error _ => r.1
  | .ok samples =>
    match verifySineWaveSamples sineValue samples expectedSeries stepNs with
    | some _ => r.1 ++ [⟨.resultsComparedTotal, comparisonFailed, defaultQuery⟩]
    | none => r.1 ++ [⟨.resultsComparedTotal, comparisonSuccess, defaultQuery⟩]

/-- From `pkg/client/query.go`, `runAdditionalQuery`: its increments are
those of `runQueryAndCollectStats`; the result is discarded. -/
def runAdditionalQuery (queryResult : QueryOutcome) (query : String) :
    List CounterInc :=
  (runQueryAndCollectStats queryResult query).1

/-- From `pkg/client/query.go`, `runQueries`: one query tick. `rangeOk` is
the eligibility flag returned by `getQueryTimeRange` (end strictly after
start); `results` maps each issued query string to its outcome. Returns
the counter increments (in one sequentially-consistent order; the source
runs the queries concurrently) and the list of queries issued this tick. -/
def runQueries (sineValue : Int → ℚ) (expectedSeries : Int)
    (start endT writeInterval : Int) (rangeOk : Bool)
    (additionalQueries : List String) (results : String → QueryOutcome) :
    List CounterInc × List String :=
  if rangeOk = false then
    ([⟨.queriesTotal, querySkipped, ""⟩], [])
  else
    let step := getQueryStep start endT writeInterval
    (runDefaultQuery sineValue expectedSeries step (results defaultQuery)
        ++ (additionalQueries.map fun q => runAdditionalQuery (results q) q).flatten,
      defaultQuery :: additionalQueries)

/-- An outbound HTTP request, reduced to its header map
(`http.Header` is a map from header name to a list of values). -/
structure HttpRequest where
  header : String → List String

/-- From `pkg/client/tenant.go`, `cloneRequest`: shallow copy of the
request with a copied header map (value semantics make the copy the
identity on the modelled state). -/
def cloneRequest (r : HttpRequest) : HttpRequest :=
  { header := r.header }

/-- Go `http.Header.Set`: replace all values of a key with one value. -/
def headerSet (h : String → List String) (key value : String) :
    String → List String :=
  fun k => if k = key then [value] else h k

/-- From `pkg/client/tenant.go`, `clientRoundTripper.RoundTrip`: the
request actually handed to the wrapped transport — the cloned request
with the tenant header set to the configured user id. -/
def roundTripRequest (userID : String) (req : HttpRequest) : HttpRequest :=
  let req2 := cloneRequest req
  { req2 with header := headerSet req2.header "X-Scope-OrgID" userID }

/-- Value function fixed to zero, used to instantiate the abstracted
sine-wave value function at concrete inputs. -/
def zeroSine : Int → ℚ := fun _ => 0

/-- Result oracle answering every query with one empty series, used for
concrete instantiations. -/
def okEmptyResults : String → QueryOutcome := fun _ => .ok []

end CortexLoadGen

namespace CortexLoadGen

/-- Permutation fact for the insertion step of the label sort. -/
theorem insertLabel_perm (x : Label) (l : List Label) :
    (insertLabel x l).Perm (x :: l) := by
  induction l with
  | nil => simp [insertLabel]
  | cons y ys ih =>
    simp only [insertLabel]
    split
    · exact List.Perm.refl _
    · exact (ih.cons y).trans (List.Perm.swap x y ys)

/-- Sorting the labels permutes them. -/
theorem sortLabels_perm (l : List Label) : (sortLabels l).Perm l := by
  induction l with
  | nil => exact List.Perm.refl _
  | cons x xs ih => exact (insertLabel_perm x (sortLabels xs)).trans (ih.cons x)

/-- Membership is unchanged by the label sort. -/
theorem mem_sortLabels {a : Label} {l : List Label} :
    a ∈ sortLabels l ↔ a ∈ l :=
  (sortLabels_perm l).mem_iff

/-- C1: the sample-value comparison of the default-query verification is
an absolute check `|actual - expected| < 10⁻⁶`, not the relative-tolerance
check the specification describes: it accepts `actual == expected`, but it
rejects a relative deviation of 0.0001 at expected value 1, and it accepts
a relative deviation of 0.01 at expected value 10⁻⁶ — because the source
divides the difference by the constant `maxComparisonDelta` instead of by
the expected value. -/
theorem compareSampleValues_is_absolute_not_relative :
    compareSampleValues 1 1 = true ∧
    compareSampleValues (10001 / 10000) 1 = false ∧
    compareSampleValues (101 / 100000000) (1 / 1000000) = true := by
  refine ⟨?_, ?_, ?_⟩ <;> norm_num [compareSampleValues, maxComparisonDelta, abs_lt]

/-- C3: on a failed query attempt, `runQueryAndCollectStats` increments
the queries-total counter for BOTH the `fail` and the `success` result
(the early return of the pre-refactor code is missing), while a successful
attempt increments only the `success` bucket. -/
theorem runQueryAndCollectStats_failed_attempt_counts_both :
    (runQueryAndCollectStats (Except.error ()) defaultQuery).1 =
      [⟨.queriesTotal, queryFailed, defaultQuery⟩,
       ⟨.queriesTotal, querySuccess, defaultQuery⟩] ∧
    (runQueryAndCollectStats (Except.ok []) defaultQuery).1 =
      [⟨.queriesTotal, querySuccess, defaultQuery⟩] :=
  ⟨rfl, rfl⟩

/-- C4 counterexample: a skipped query tick increments the queries-total
skipped counter with an EMPTY query label, not with the default query's
label as the claim states. -/
theorem runQueries_skip_label_is_empty_counterexample :
    (runQueries zeroSine 1 0 0 1 false ["up"] okEmptyResults).1 =
      [⟨.queriesTotal, querySkipped, ""⟩] ∧
    (⟨.queriesTotal, querySkipped, defaultQuery⟩ : CounterInc) ∉
      (runQueries zeroSine 1 0 0 1 false ["up"] okEmptyResults).1 ∧
    ("" : String) ≠ defaultQuery := by
  decide

/-- C4 (amended): when a query tick is skipped because there is no
eligible time range, the only counter incremented is the queries-total
skipped counter with an empty query label, and no query is issued on that
tick. -/
theorem runQueries_skipped_tick (sineValue : Int → ℚ)
    (expectedSeries start endT writeInterval : Int)
    (additionalQueries : List String) (results : String → QueryOutcome) :
    runQueries sineValue expectedSeries start endT writeInterval false
        additionalQueries results =
      ([⟨.queriesTotal, querySkipped, ""⟩], []) :=
  rfl

/-- C5 counterexample: for the pre-epoch timestamp -5ns and interval 10ns
the alignment rounds UP (Go's integer division truncates towards zero), so
`align(ts, interval) ≤ ts` fails. -/
theorem alignTimestampToInterval_negative_ts_counterexample :
    alignTimestampToInterval (-5) 10 = 0 ∧
    ¬ alignTimestampToInterval (-5) 10 ≤ -5 ∧ (0 : Int) < 10 := by
  decide

/-- C5 (amended): for every nonnegative timestamp and every positive
interval, the aligned timestamp satisfies
`align ≤ ts < align + interval` and is a multiple of the interval. -/
theorem alignTimestampToInterval_spec (ts interval : Int)
    (hts : 0 ≤ ts) (hint : 0 < interval) :
    alignTimestampToInterval ts interval ≤ ts ∧
    ts < alignTimestampToInterval ts interval + interval ∧
    alignTimestampToInterval ts interval % interval = 0 := by
  have hdiv : goDiv ts interval = ts / interval :=
    Int.tdiv_eq_ediv hts hint.le
  unfold alignTimestampToInterval
  rw [hdiv]
  refine ⟨Int.ediv_mul_le ts hint.ne.symm, ?_, Int.mul_emod_left _ _⟩
  have h := Int.lt_ediv_add_one_mul_self ts hint
  nlinarith [h]

/-- C5 witness: alignment of 31ns to a 10ns interval. -/
theorem alignTimestampToInterval_spec_witness :
    alignTimestampToInterval 31 10 ≤ 31 ∧
    (31 : Int) < alignTimestampToInterval 31 10 + 10 ∧
    alignTimestampToInterval 31 10 % 10 = 0 :=
  alignTimestampToInterval_spec 31 10 (by decide) (by decide)

/-- Go division of two casted naturals is the casted natural division. -/
theorem goDiv_natCast (a b : ℕ) : goDiv (a : ℤ) (b : ℤ) = ((a / b : ℕ) : ℤ) := rfl

/-- Arithmetic core of `getQueryStep`'s downsampling branch, at the level
of natural numbers: the produced step is positive, keeps the implied
sample count within the budget of 1000, and is the least multiple of the
write interval strictly greater than `dn / 1000`. -/
theorem stepNat_spec (dn wn : ℕ) (hw : 0 < wn) :
    0 < (dn / 1000 / wn + 1) * wn ∧
    dn / ((dn / 1000 / wn + 1) * wn) ≤ 1000 ∧
    ∀ mn : ℕ, wn ∣ mn → dn / 1000 < mn → (dn / 1000 / wn + 1) * wn ≤ mn := by
  set q := dn / 1000 with hq
  have hs0 : 0 < (q / wn + 1) * wn := Nat.mul_pos (Nat.succ_pos _) hw
  have hqs : q < (q / wn + 1) * wn := (Nat.div_lt_iff_lt_mul hw).mp (Nat.lt_succ_self _)
  have hd : dn < (q + 1) * 1000 := by
    have h0 : dn / 1000 < q + 1 := by omega
    exact (Nat.div_lt_iff_lt_mul (by norm_num)).mp h0
  refine ⟨hs0, ?_, ?_⟩
  · have h1 : dn < 1000 * ((q / wn + 1) * wn) := by
      calc dn < (q + 1) * 1000 := hd
        _ ≤ ((q / wn + 1) * wn) * 1000 :=
            Nat.mul_le_mul_right 1000 (Nat.succ_le_of_lt hqs)
        _ = 1000 * ((q / wn + 1) * wn) := Nat.mul_comm _ _
    exact Nat.le_of_lt ((Nat.div_lt_iff_lt_mul hs0).mpr h1)
  · intro mn hdvd hlt
    obtain ⟨k, rfl⟩ := hdvd
    have hk : q / wn < k :=
      (Nat.div_lt_iff_lt_mul hw).mpr (Nat.mul_comm wn k ▸ hlt)
    calc (q / wn + 1) * wn ≤ k * wn := Nat.mul_le_mul_right wn (Nat.succ_le_of_lt hk)
      _ = wn * k := Nat.mul_comm _ _

/-- C2 counterexample: for a window of 2000ns and a write interval of
1ns the code returns step 3, although 2 is a smaller positive multiple of
the write interval that already keeps the implied sample count within
1000 — so the returned step is not the smallest such multiple. -/
theorem getQueryStep_not_smallest_counterexample :
    getQueryStep 0 2000 1 = 3 ∧
    (0 : Int) < 2 ∧ (1 : Int) ∣ 2 ∧ goDiv 2000 2 ≤ 1000 ∧ ¬ (3 : Int) ≤ 2 := by
  decide

/-- C2 (amended): with start < end and a positive write interval, if the
implied sample count `(end-start)/writeInterval` is at most 1000 the step
is exactly the write interval; otherwise the step is
`((end-start)/1000 / writeInterval + 1) * writeInterval` — the smallest
positive multiple of the write interval strictly greater than
`(end-start)/1000` — which always keeps the implied sample count at or
under 1000 but is not always the smallest multiple doing so. -/
theorem getQueryStep_spec (start endT writeInterval : Int)
    (hlt : start < endT) (hw : 0 < writeInterval) :
    (goDiv (endT - start) writeInterval ≤ 1000 →
      getQueryStep start endT writeInterval = writeInterval) ∧
    (1000 < goDiv (endT - start) writeInterval →
      getQueryStep start endT writeInterval =
          (goDiv (goDiv (endT - start) 1000) writeInterval + 1) * writeInterval ∧
        0 < getQueryStep start endT writeInterval ∧
        writeInterval ∣ getQueryStep start endT writeInterval ∧
        goDiv (endT - start) (getQueryStep start endT writeInterval) ≤ 1000 ∧
        ∀ m : Int, writeInterval ∣ m → goDiv (endT - start) 1000 < m →
          getQueryStep start endT writeInterval ≤ m) := by
  have hd0 : (0 : Int) ≤ endT - start := by omega
  have hw0 : (0 : Int) ≤ writeInterval := hw.le
  obtain ⟨dn, hdn⟩ := Int.eq_ofNat_of_zero_le hd0
  obtain ⟨wn, hwn⟩ := Int.eq_ofNat_of_zero_le hw0
  have hwn0 : 0 < wn := by omega
  obtain ⟨hs0, hbudget, hmin⟩ := stepNat_spec dn wn hwn0
  constructor
  · intro hcond
    simp only [getQueryStep, if_pos hcond]
  · intro hcond
    have hcond' : ¬ goDiv (endT - start) writeInterval ≤ 1000 := not_le.mpr hcond
    have hstep : getQueryStep start endT writeInterval =
        (goDiv (goDiv (endT - start) 1000) writeInterval + 1) * writeInterval := by
      simp only [getQueryStep, if_neg hcond']
    refine ⟨hstep, ?_, ?_, ?_, ?_⟩
    · rw [hstep, hdn, hwn]
      rw [show ((1000 : ℤ)) = ((1000 : ℕ) : ℤ) from rfl, goDiv_natCast, goDiv_natCast]
      have hwz : (0 : ℤ) < ((wn : ℕ) : ℤ) := by exact_mod_cast hwn0
      positivity
    · rw [hstep]
      exact Dvd.intro_left _ rfl
    · rw [hstep, hdn, hwn]
      rw [show ((1000 : ℤ)) = ((1000 : ℕ) : ℤ) from rfl, goDiv_natCast, goDiv_natCast]
      rw [show ((dn / 1000 / wn : ℕ) : ℤ) + 1 = (((dn / 1000 / wn + 1 : ℕ)) : ℤ) by
        push_cast; ring]
      rw [show (((dn / 1000 / wn + 1 : ℕ)) : ℤ) * ((wn : ℕ) : ℤ) =
          (((dn / 1000 / wn + 1) * wn : ℕ) : ℤ) by push_cast; ring]
      rw [goDiv_natCast]
      exact_mod_cast hbudget
    · intro m hmd hmlt
      rw [hdn] at hmlt
      rw [show ((1000 : ℤ)) = ((1000 : ℕ) : ℤ) from rfl, goDiv_natCast] at hmlt
      have hm0 : (0 : ℤ) ≤ m := le_trans (by positivity) hmlt.le
      obtain ⟨mn, hmn⟩ := Int.eq_ofNat_of_zero_le hm0
      rw [hstep, hdn, hwn]
      rw [show ((1000 : ℤ)) = ((1000 : ℕ) : ℤ) from rfl, goDiv_natCast, goDiv_natCast]
      rw [hmn] at hmd hmlt ⊢
      rw [hwn] at hmd
      have hdvd : wn ∣ mn := Int.ofNat_dvd.mp hmd
      have hlt2 : dn / 1000 < mn := by exact_mod_cast hmlt
      have := hmin mn hdvd hlt2
      push_cast
      exact_mod_cast this

/-- C2 witness: the step specification evaluated for a 5000ns window with
a 2ns write interval (code step 6, implied sample count 833). -/
theorem getQueryStep_spec_witness :
    (goDiv ((5000 : Int) - 0) 2 ≤ 1000 → getQueryStep 0 5000 2 = 2) ∧
    (1000 < goDiv ((5000 : Int) - 0) 2 →
      getQueryStep 0 5000 2 = (goDiv (goDiv ((5000 : Int) - 0) 1000) 2 + 1) * 2 ∧
        0 < getQueryStep 0 5000 2 ∧
        (2 : Int) ∣ getQueryStep 0 5000 2 ∧
        goDiv ((5000 : Int) - 0) (getQueryStep 0 5000 2) ≤ 1000 ∧
        ∀ m : Int, (2 : Int) ∣ m → goDiv ((5000 : Int) - 0) 1000 < m →
          getQueryStep 0 5000 2 ≤ m) :=
  getQueryStep_spec 0 5000 2 (by decide) (by decide)

/-- Flattening the batches restores the original list (fuel at least the
list length suffices when the batch size is positive). -/
theorem batchLoop_flatten {α : Type} (B : ℕ) (hB : 0 < B) :
    ∀ (fuel : ℕ) (l : List α), l.length ≤ fuel → (batchLoop B fuel l).flatten = l := by
  intro fuel
  induction fuel with
  | zero =>
    intro l hl
    rw [List.length_eq_zero.mp (Nat.le_zero.mp hl)]
    rfl
  | succ fuel ih =>
    intro l hl
    match l with
    | [] => rfl
    | x :: xs =>
      have hlen : ((x :: xs).drop B).length ≤ fuel := by
        rw [List.length_drop]
        simp only [List.length_cons] at hl ⊢
        omega
      simp only [batchLoop, List.flatten_cons, ih _ hlen, List.take_append_drop]

/-- The number of batches is the length divided by the batch size, rounded
up. -/
theorem batchLoop_length {α : Type} (B : ℕ) (hB : 0 < B) :
    ∀ (fuel : ℕ) (l : List α), l.length ≤ fuel →
      (batchLoop B fuel l).length = (l.length + B - 1) / B := by
  intro fuel
  induction fuel with
  | zero =>
    intro l hl
    rw [List.length_eq_zero.mp (Nat.le_zero.mp hl)]
    simp [batchLoop, Nat.div_eq_of_lt (by omega : B - 1 < B)]
  | succ fuel ih =>
    intro l hl
    match l with
    | [] => simp [batchLoop, Nat.div_eq_of_lt (by omega : B - 1 < B)]
    | x :: xs =>
      have hlen : ((x :: xs).drop B).length ≤ fuel := by
        rw [List.length_drop]
        simp only [List.length_cons] at hl ⊢
        omega
      simp only [batchLoop, List.length_cons, ih _ hlen, List.length_drop]
      rw [show xs.length + 1 + B - 1 = xs.length + B by omega, Nat.add_div_right _ hB]
      by_cases hc : xs.length + 1 ≤ B
      · rw [show xs.length + 1 - B + B - 1 = B - 1 by omega,
          Nat.div_eq_of_lt (by omega : B - 1 < B),
          Nat.div_eq_of_lt (by omega : xs.length < B)]
      · rw [show xs.length + 1 - B + B - 1 = xs.length by omega]

/-- Every batch contains at most `B` elements. -/
theorem batchLoop_sizes {α : Type} (B : ℕ) :
    ∀ (fuel : ℕ) (l : List α), ∀ b ∈ batchLoop B fuel l, b.length ≤ B := by
  intro fuel
  induction fuel with
  | zero => intro l b hb; simp [batchLoop] at hb
  | succ fuel ih =>
    intro l b hb
    match l with
    | [] => simp [batchLoop] at hb
    | x :: xs =>
      simp only [batchLoop, List.mem_cons] at hb
      rcases hb with rfl | hb
      · simp [List.length_take]
      · exact ih _ b hb

/-- The generator returns exactly `seriesCount` series. -/
theorem generateSineWaveSeries_length (sineValue : Int → ℚ) (t churnNs : Int)
    (seriesCount extraLabelsCount : ℕ) :
    (generateSineWaveSeries sineValue t seriesCount extraLabelsCount churnNs).length
      = seriesCount := by
  simp [generateSineWaveSeries]

/-- C6: one write tick partitions the `N` generated series into
`ceil(N/B)` contiguous batches of at most `B` series each; flattening the
batches yields the generated list back, so every series appears in
exactly one batch and batch order preserves generation order. (`B ≥ 1` is
required: for batch size 0 the Go loop does not terminate.) -/
theorem writeSeries_batch_partition (sineValue : Int → ℚ) (t churnNs : Int)
    (N extraLabelsCount B : ℕ) (hN : 1 ≤ N) (hB : 1 ≤ B) :
    (generateSineWaveSeries sineValue t N extraLabelsCount churnNs).length = N ∧
    (writeBatches B (generateSineWaveSeries sineValue t N extraLabelsCount churnNs)).length
      = (N + B - 1) / B ∧
    (writeBatches B (generateSineWaveSeries sineValue t N extraLabelsCount churnNs)).flatten
      = generateSineWaveSeries sineValue t N extraLabelsCount churnNs ∧
    ∀ b ∈ writeBatches B (generateSineWaveSeries sineValue t N extraLabelsCount churnNs),
      b.length ≤ B := by
  have hlen := generateSineWaveSeries_length sineValue t churnNs N extraLabelsCount
  refine ⟨hlen, ?_, ?_, ?_⟩
  · rw [writeBatches, batchLoop_length B hB _ _ le_rfl, hlen]
  · exact batchLoop_flatten B hB _ _ le_rfl
  · exact batchLoop_sizes B _ _

/-- C6 witness: five series batched with batch size two give three
batches (of sizes two, two and one). -/
theorem writeSeries_batch_partition_witness :
    (generateSineWaveSeries zeroSine 0 5 0 0).length = 5 ∧
    (writeBatches 2 (generateSineWaveSeries zeroSine 0 5 0 0)).length = (5 + 2 - 1) / 2 ∧
    (writeBatches 2 (generateSineWaveSeries zeroSine 0 5 0 0)).flatten
      = generateSineWaveSeries zeroSine 0 5 0 0 ∧
    ∀ b ∈ writeBatches 2 (generateSineWaveSeries zeroSine 0 5 0 0), b.length ≤ 2 :=
  writeSeries_batch_partition zeroSine 0 0 5 0 2 (by decide) (by decide)

/-- C8: the series generator is deterministic — two calls with identical
argument tuples (timestamp, series count, extra-label count, churn
period) return identical series lists: the same label names and values in
the same order for every series, and the same sample value and
timestamp. (`sineValue` is the fixed pure value function of the source.) -/
theorem generateSineWaveSeries_deterministic (sineValue : Int → ℚ)
    (t1 t2 : Int) (n1 n2 e1 e2 : ℕ) (c1 c2 : Int)
    (ht : t1 = t2) (hn : n1 = n2) (he : e1 = e2) (hc : c1 = c2) :
    generateSineWaveSeries sineValue t1 n1 e1 c1 =
      generateSineWaveSeries sineValue t2 n2 e2 c2 := by
  rw [ht, hn, he, hc]

/-- C8 witness: determinism applied at one concrete argument tuple. -/
theorem generateSineWaveSeries_deterministic_witness :
    generateSineWaveSeries zeroSine 0 1 0 0 = generateSineWaveSeries zeroSine 0 1 0 0 :=
  generateSineWaveSeries_deterministic zeroSine 0 0 1 1 0 0 0 0 rfl rfl rfl rfl

/-- Nested integer division of nonnegative integers collapses to division
by the product. -/
theorem ediv_ediv_of_nonneg (x a b : ℤ) (hx : 0 ≤ x) (ha : 0 ≤ a) (hb : 0 ≤ b) :
    x / a / b = x / (a * b) := by
  obtain ⟨xn, rfl⟩ := Int.eq_ofNat_of_zero_le hx
  obtain ⟨an, rfl⟩ := Int.eq_ofNat_of_zero_le ha
  obtain ⟨bn, rfl⟩ := Int.eq_ofNat_of_zero_le hb
  have h1 : ((xn : ℤ)) / (an : ℤ) = ((xn / an : ℕ) : ℤ) := by
    rw [← Int.tdiv_eq_ediv (Int.ofNat_nonneg xn) (Int.ofNat_nonneg an)]
    exact goDiv_natCast xn an
  have h2 : (((xn / an : ℕ) : ℤ)) / (bn : ℤ) = ((xn / an / bn : ℕ) : ℤ) := by
    rw [← Int.tdiv_eq_ediv (Int.ofNat_nonneg _) (Int.ofNat_nonneg bn)]
    exact goDiv_natCast _ bn
  have h3 : ((xn : ℤ)) / ((an : ℤ) * (bn : ℤ)) = ((xn / (an * bn) : ℕ) : ℤ) := by
    rw [show ((an : ℤ)) * (bn : ℤ) = ((an * bn : ℕ) : ℤ) by push_cast; ring]
    rw [← Int.tdiv_eq_ediv (Int.ofNat_nonneg xn) (Int.ofNat_nonneg _)]
    exact goDiv_natCast xn _
  rw [h1, h2, h3, Nat.div_div_eq_div_mul]

/-- The name of a filler label never collides with `churn`. -/
theorem extraLabel_name_ne_churn (s : String) : ("extraLabel" ++ s) ≠ "churn" := by
  intro h
  have hl := congrArg String.length h
  rw [String.length_append] at hl
  have h1 : ("extraLabel" : String).length = 10 := by decide
  have h2 : ("churn" : String).length = 5 := by decide
  omega

/-- For a churn period that is a positive whole number of seconds and a
nonnegative timestamp, the churn id computed by the code (in truncated
seconds) equals the floor of `(t + (churnPeriod/seriesCount) * seriesID)
/ churnPeriod` taken directly over nanoseconds. -/
theorem churnID_eq (t churnNs P : Int) (seriesCount seriesID : ℕ)
    (ht : 0 ≤ t) (hP : 0 < P) (hc : churnNs = P * nsPerSecond) :
    churnID t churnNs seriesCount seriesID =
      Int.fdiv (t + goDiv churnNs (seriesCount : Int) * (seriesID : Int)) churnNs := by
  have h1e9 : (0 : ℤ) < nsPerSecond := by norm_num [nsPerSecond]
  have hcpos : 0 < churnNs := by rw [hc]; positivity
  have hshift : 0 ≤ goDiv churnNs (seriesCount : Int) * (seriesID : Int) :=
    mul_nonneg (Int.tdiv_nonneg hcpos.le (Int.ofNat_nonneg seriesCount))
      (Int.ofNat_nonneg seriesID)
  have hx0 : 0 ≤ t + goDiv churnNs (seriesCount : Int) * (seriesID : Int) :=
    add_nonneg ht hshift
  unfold churnID unixSeconds churnPeriodSeconds
  generalize hgen : t + goDiv churnNs (seriesCount : Int) * (seriesID : Int) = x
  rw [hgen] at hx0
  have hPs : goDiv churnNs nsPerSecond = P := by
    unfold goDiv
    rw [hc, Int.tdiv_eq_ediv (by positivity) h1e9.le]
    exact Int.mul_ediv_cancel P h1e9.ne.symm
  rw [hPs, Int.fdiv_eq_ediv x h1e9.le]
  unfold goDiv
  rw [Int.tdiv_eq_ediv (Int.ediv_nonneg hx0 h1e9.le) hP.le]
  rw [Int.fdiv_eq_ediv x hcpos.le]
  rw [ediv_ediv_of_nonneg x nsPerSecond P hx0 h1e9.le hP.le]
  rw [hc, mul_comm]

/-- C7 (amended): for a nonnegative timestamp, a churn period that is a
positive whole number of seconds, and every 1-based series index
`i ∈ 1..N`, the i-th generated series carries exactly one churn label,
whose value is the epoch bucket
`floor((t + (churnPeriod/seriesCount)·i) / churnPeriod)` (durations in
nanoseconds, `churnPeriod/seriesCount` truncated as the code's duration
division does); when the churn period is 0 the churn label is absent from
every series. -/
theorem generateSineWaveSeries_churn_label (sineValue : Int → ℚ) (t churnNs P : Int)
    (N extraLabelsCount i : ℕ) (ht : 0 ≤ t) (hi1 : 1 ≤ i) (hiN : i ≤ N)
    (hP : 0 < P) (hc : churnNs = P * nsPerSecond)
    (hlen : i - 1 < (generateSineWaveSeries sineValue t N extraLabelsCount churnNs).length) :
    (⟨"churn", toString (Int.fdiv (t + goDiv churnNs (N : Int) * (i : Int)) churnNs)⟩ : Label) ∈
      ((generateSineWaveSeries sineValue t N extraLabelsCount churnNs).get
        ⟨i - 1, hlen⟩).labels ∧
    (∀ v : String,
      (⟨"churn", v⟩ : Label) ∈
          ((generateSineWaveSeries sineValue t N extraLabelsCount churnNs).get
            ⟨i - 1, hlen⟩).labels →
      v = toString (Int.fdiv (t + goDiv churnNs (N : Int) * (i : Int)) churnNs)) ∧
    ∀ s ∈ generateSineWaveSeries sineValue t N extraLabelsCount 0,
      ∀ lab ∈ s.labels, lab.name ≠ "churn" := by
  have h1e9 : (0 : ℤ) < nsPerSecond := by norm_num [nsPerSecond]
  have hcpos : 0 < churnNs := by rw [hc]; positivity
  have hget : (generateSineWaveSeries sineValue t N extraLabelsCount churnNs).get
      ⟨i - 1, hlen⟩ =
      { labels := seriesLabels t N extraLabelsCount churnNs i
        samples := [{ value := sineValue t, timestampMs := unixMilli t }] } := by
    rw [List.get_eq_getElem]
    simp only [generateSineWaveSeries, List.getElem_map, List.getElem_range]
    rw [show i - 1 + 1 = i from by omega]
  have hlabels : seriesLabels t N extraLabelsCount churnNs i =
      sortLabels ([⟨"__name__", "cortex_load_generator_sine_wave"⟩, ⟨"wave", toString i⟩]
        ++ extraLabelsList extraLabelsCount
        ++ [⟨"churn", toString (churnID t churnNs N i)⟩]) := by
    unfold seriesLabels
    rw [if_pos hcpos]
  refine ⟨?_, ?_, ?_⟩
  · rw [hget, ← churnID_eq t churnNs P N i ht hP hc]
    show _ ∈ seriesLabels t N extraLabelsCount churnNs i
    rw [hlabels]
    apply mem_sortLabels.mpr
    simp
  · intro v hv
    rw [hget] at hv
    rw [← churnID_eq t churnNs P N i ht hP hc]
    replace hv : (⟨"churn", v⟩ : Label) ∈ seriesLabels t N extraLabelsCount churnNs i := hv
    rw [hlabels] at hv
    have hv2 := mem_sortLabels.mp hv
    simp only [List.mem_append, List.mem_cons, List.mem_singleton, List.not_mem_nil,
      or_false, extraLabelsList, List.mem_map, List.mem_range, Label.mk.injEq] at hv2
    rcases hv2 with ((⟨h1, _⟩ | ⟨h1, _⟩) | ⟨j, _, h1, _⟩) | ⟨_, h2⟩
    · exact absurd h1 (by decide)
    · exact absurd h1 (by decide)
    · exact absurd h1 (extraLabel_name_ne_churn (toString j))
    · exact h2
  · intro s hs lab hlab
    simp only [generateSineWaveSeries, List.mem_map, List.mem_range] at hs
    obtain ⟨k, _, rfl⟩ := hs
    replace hlab : lab ∈ seriesLabels t N extraLabelsCount 0 (k + 1) := hlab
    unfold seriesLabels at hlab
    rw [if_neg (lt_irrefl (0 : ℤ))] at hlab
    have hlab2 := mem_sortLabels.mp hlab
    simp only [List.append_nil, List.mem_append, List.mem_cons, List.not_mem_nil,
      or_false, extraLabelsList, List.mem_map, List.mem_range] at hlab2
    rcases hlab2 with (rfl | rfl) | ⟨j, _, rfl⟩
    · exact (by decide : ("__name__" : String) ≠ "churn")
    · exact (by decide : ("wave" : String) ≠ "churn")
    · exact extraLabel_name_ne_churn (toString j)

/-- C7 counterexample: for the non-whole-second churn period 1.5s
(seriesCount 1, series index 1, t = 2s) the code divides by
`int64(churnPeriod.Seconds()) = 1` and emits churn bucket "3", while the
claimed bucket `floor((t + (churnPeriod/seriesCount)·i) / churnPeriod)`
is 2 — so the claim fails for a positive churn period that is not a whole
number of seconds. -/
theorem generateSineWaveSeries_churn_counterexample :
    (generateSineWaveSeries zeroSine 2000000000 1 0 1500000000).map TimeSeries.labels =
      [[⟨"__name__", "cortex_load_generator_sine_wave"⟩, ⟨"churn", "3"⟩, ⟨"wave", "1"⟩]] ∧
    (⌊((2000000000 : ℚ) + (1500000000 / 1) * 1) / 1500000000⌋ : ℤ) = 2 ∧
    ("3" : String) ≠ "2" := by
  refine ⟨by decide, by norm_num, by decide⟩

/-- C7 witness: the churn specification evaluated at the regression
fixture of the source's tests (three series, churn period 60s,
t = 2023-06-29T00:00:00Z, series index 2, churn bucket 28133280). -/
theorem generateSineWaveSeries_churn_label_witness :
    (⟨"churn", toString (Int.fdiv ((1687996800000000000 : Int) +
        goDiv (60 * nsPerSecond) (3 : Int) * (2 : Int)) (60 * nsPerSecond))⟩ : Label) ∈
      ((generateSineWaveSeries zeroSine 1687996800000000000 3 0 (60 * nsPerSecond)).get
        ⟨2 - 1, by decide⟩).labels ∧
    (∀ v : String,
      (⟨"churn", v⟩ : Label) ∈
          ((generateSineWaveSeries zeroSine 1687996800000000000 3 0 (60 * nsPerSecond)).get
            ⟨2 - 1, by decide⟩).labels →
      v = toString (Int.fdiv ((1687996800000000000 : Int) +
        goDiv (60 * nsPerSecond) (3 : Int) * (2 : Int)) (60 * nsPerSecond))) ∧
    ∀ s ∈ generateSineWaveSeries zeroSine 1687996800000000000 3 0 0,
      ∀ lab ∈ s.labels, lab.name ≠ "churn" :=
  generateSineWaveSeries_churn_label zeroSine 1687996800000000000 (60 * nsPerSecond) 60
    3 0 2 (by decide) (by decide) (by decide) (by decide) rfl (by decide)

/-- C9: every request passed through the client round-tripper carries the
`X-Scope-OrgID` header set to the configured per-tenant user id. -/
theorem clientRoundTripper_sets_tenant_header (userID : String)
    (req : HttpRequest) :
    (roundTripRequest userID req).header "X-Scope-OrgID" = [userID] := by
  simp [roundTripRequest, cloneRequest, headerSet]

/-- C10: verifying an empty sample list succeeds for every expected series
count and every step, so a default-query result parsed as one series with
zero samples increments the results-compared counter for `success`. -/
theorem verifySineWaveSamples_empty_counts_success (sineValue : Int → ℚ)
    (expectedSeries stepNs : Int) :
    verifySineWaveSamples sineValue [] expectedSeries stepNs = none ∧
    runDefaultQuery sineValue expectedSeries stepNs (Except.ok []) =
      [⟨.queriesTotal, querySuccess, defaultQuery⟩,
       ⟨.resultsComparedTotal, comparisonSuccess, defaultQuery⟩] :=
  ⟨rfl, rfl⟩

end CortexLoadGen
